import Mathlib

/-!
# gofabric8: project detection and the secret provisioning pipeline

A shallow embedding of `cmds/secrets.go` (`createSecret`, `createAndPrintSecrets`,
`getSecretData`, `generateSshKeyPair`, `writeFile`, `processSecretsForTemplate`) and of the
project resolver `detectCurrentUserProject` exercised by `cmds/common_test.go`.

Conventions of the embedding:

* a Go `string` is a `List Char` (`Str`), a `[]byte` is a `List Nat` (`Bytes`);
* a Go `error` value is an `Option Str` (`none` is `nil`);
* everything the process does to the outside world is explicit: the local files, the
  number of key pairs drawn from the random source, the number of cluster `Create`
  calls and the list of observable events live in a `World`; the answers of the
  outside world (key generator, file opening, HTTP fetch, cluster) live in an `Env`;
* `util.Fatalf`, `os.Exit` and a Go run-time panic end the process: a procedure returns
  `Except Abort α` together with the world reached so far;
* console output other than `printResult` is not part of the model.
-/

namespace Gofabric8

/-- Go strings. -/
abbrev Str := List Char

/-- Go byte slices; a `nil` slice and an empty slice are both `[]`. -/
abbrev Bytes := List Nat

/-! ## Project resolver -/

/-- The value of `projectapi.Project` the resolver looks at: its name. -/
structure Project where
  Name : Str
deriving DecidableEq, Repr

/-- The names of a project list, in input order. -/
def projectNames (items : List Project) : List Str := items.map Project.Name

/-- Modelled from the spec: the suffix vocabulary of derived projects. The spec (sections 4.1
and 9) fixes it to a small closed list evidenced by "-che" and "-jenkins". -/
def suffixes : List Str := ["-che".toList, "-jenkins".toList]

/-- Go `strings.TrimSuffix` guarded by `strings.HasSuffix`: `some` of the string without the
suffix when it ends in the suffix, `none` otherwise. -/
def trimSuffix (s suf : Str) : Option Str :=
  if suf.isSuffixOf s then some (s.take (s.length - suf.length)) else none

/-- Modelled from the spec: "strip every known suffix from currentNamespace to obtain a
candidate base" (section 4.1, step 2): the name without its recognised suffix, `none` for a
base name (a name with no recognised suffix). -/
def stripSuffix (name : Str) : Option Str :=
  suffixes.findSome? (trimSuffix name)

/-- Modelled from the spec: a name has a derived sibling in the list when the name followed
by one of the recognised suffixes is a listed project. -/
def hasDerivedSibling (names : List Str) (p : Str) : Bool :=
  suffixes.any (fun s => names.contains (p ++ s))

/-- Modelled from the spec: the "qualifying" projects of sections 4.1 and 8, the listed base
names (no recognised suffix) that have a derived sibling in the list. -/
def isQualifyingBase (names : List Str) (p : Str) : Bool :=
  names.contains p && (stripSuffix p).isNone && hasDerivedSibling names p

/-- A listed base project with a derived sibling, as a proposition: the name is listed, has
no recognised suffix, and followed by a recognised suffix is listed too. -/
def BaseWithSibling (names : List Str) (p : Str) : Prop :=
  p ∈ names ∧ stripSuffix p = none ∧ ∃ s ∈ suffixes, p ++ s ∈ names

/-- Modelled from the spec: the fallback of section 8, the first qualifying base project in
input order, and the empty string when there is none (section 4.1, step 4). -/
def firstQualifying (names : List Str) : Str :=
  match names.find? (isQualifyingBase names) with
  | some p => p
  | none => []

/-- Modelled from the spec: `detectCurrentUserProject` of `cmds/common.go`, which is not among
the sources (only its caller `getOpenShiftClient` and its test `TestGetProject` are).
Section 4.1 of the spec, read together with the five cases of `TestGetProject`:

* step 2: the current namespace without its suffix, when that is a listed project, is the
  result (being inside `bar-che` or `bar-jenkins` resolves to `bar`);
* steps 1 and 3: a current namespace that is a listed base project of a derived family is
  the result;
* otherwise (section 8, "the first qualifying project when disambiguation is impossible")
  the first listed base project with a derived sibling, in input order, and the empty string
  when there is none (step 4).

Steps 1 and 3 are restricted to a base with a derived sibling because `TestGetProject`
expects `foo` for the listed current namespace `moto` in `{foo-che, bar-che, foo, moto}` and
the empty string for it in `{foo-che, moto}`. The `clientset` argument is not used by the
resolution and is left out. -/
def detectCurrentUserProject (current : Str) (items : List Project) : Str :=
  let names := projectNames items
  match stripSuffix current with
  | some base => if names.contains base then base else firstQualifying names
  | none => if isQualifyingBase names current then current else firstQualifying names

/-- Builds a project list from names, as `TestGetProject` does with `p1.Name = ...`. -/
def projects (names : List String) : List Project := names.map (fun n => ⟨n.toList⟩)

/-! ## Secret provisioning: data -/

/-- The value of `Keypair`: the two encoded halves of a generated key pair. -/
structure Keypair where
  pub : Bytes
  priv : Bytes
deriving DecidableEq, Repr

/-- Modelled from the spec: the type `Result` with its values `Success` and `Failure`, declared
outside the sources: the pass or fail of the result line of an attempted secret (spec,
section 7). -/
inductive Result where
  | Success
  | Failure
deriving DecidableEq, Repr

/-- A Go `map[string][]byte` in insertion order: at most one entry per key. -/
abbrev Payload := List (Str × Bytes)

/-- Go `data[k] = v`: overwrites the entry of `k`, or adds one. -/
def Payload.set : Payload → Str → Bytes → Payload
  | [], k, v => [(k, v)]
  | (k', v') :: rest, k, v =>
    if k' = k then (k, v) :: rest else (k', v') :: Payload.set rest k v

/-- The keys of a payload. -/
def Payload.keys (d : Payload) : List Str := d.map Prod.fst

/-- The fields of `api.Secret` that `secret` fills in. -/
structure Secret where
  Name : Str
  SecretType : Str
  Data : Payload
deriving DecidableEq, Repr

/-- The three flags of the `secrets` command. They are declared with `BoolP`, so
`flags.Lookup(name).Value.String() == "true"` is the value of the flag. -/
structure Flags where
  printImportFolderStructure : Bool
  writeGeneratedKeys : Bool
  generateSecretsData : Bool
deriving DecidableEq, Repr

/-- How the process ends when it does not return: `util.Fatalf` / `os.Exit`, or a Go
run-time panic (`panic(err)`, index out of range). -/
inductive Abort where
  | fatal
  | runtimePanic
deriving DecidableEq, Repr

/-- What the process does that can be observed from outside. -/
inductive Event where
  | wrote (path : Str) (contents : Bytes)
  | created (ns : Str) (secret : Secret)
  | printed (label : Str) (r : Result) (err : Option Str)
deriving DecidableEq, Repr

/-- The answers of the outside world.

* `genKey n`: the `n`-th call of `rsa.GenerateKey`, encoded by `generateSshKeyPair`
  (`none`: it returned an error);
* `canWrite path`: whether `os.OpenFile` and `f.Write` on `path` succeed;
* `httpGet`: the fetch of the default maven settings (`none`: `http.Get` failed,
  `some none`: reading the body failed, `some (some b)`: the body);
* `defaultNamespace`: the namespace and error of `f.DefaultNamespace()`;
* `create n ns secret`: the `n`-th call `c.Secrets(ns).Create(&secret)`: whether the
  returned object is non-nil, and the returned error. -/
structure Env where
  genKey : Nat → Option Keypair
  canWrite : Str → Bool
  httpGet : Option (Option Bytes)
  defaultNamespace : Str × Option Str
  create : Nat → Str → Secret → Bool × Option Str

/-- The state the process works on: the readable local files, the number of key pairs
generated and of `Create` calls made so far, and the events so far. -/
structure World where
  files : Str → Option Bytes
  keys : Nat
  creates : Nat
  out : List Event

/-- A procedure: from a world to its result, or the way the process ended, and the world
reached. -/
abbrev Proc (α : Type) := World → Except Abort α × World

/-- Go `strings.Split(s, sep)` for a one-character separator. -/
def split (sep : Char) : Str → List Str
  | [] => [[]]
  | c :: cs =>
    if c = sep then [] :: split sep cs
    else
      match split sep cs with
      | [] => [[c]]
      | w :: ws => (c :: w) :: ws

/-- The loop of Go `strings.FieldsFunc`: `cur` is the field being read. -/
def fieldsFuncAux (f : Char → Bool) : Str → Str → List Str
  | [], cur => if cur = [] then [] else [cur]
  | c :: cs, cur =>
    if f c then
      (if cur = [] then fieldsFuncAux f cs [] else cur :: fieldsFuncAux f cs [])
    else fieldsFuncAux f cs (cur ++ [c])

/-- Go `strings.FieldsFunc(s, f)`: the maximal non-empty runs of characters not satisfying
`f`. -/
def fieldsFunc (f : Char → Bool) (s : Str) : List Str := fieldsFuncAux f s []

/-- Modelled from the spec: `util.Fatalf`, declared outside the sources: a fatal condition
terminates the process with a non-zero status (spec, sections 4.3, 6 and 7). -/
def Fatalf {α : Type} : Proc α := fun w => (.error Abort.fatal, w)

/-- Go `ioutil.ReadFile`: the bytes, `none` for an error. -/
def readFile (path : Str) (w : World) : Option Bytes := w.files path

/-- The byte slice of `b, err := ioutil.ReadFile(..)`: taken to be `nil` when `err != nil`
(a file is read whole or not at all). -/
def bytesOf (r : Option Bytes) : Bytes := r.getD []

/-! ## Secret provisioning: operations -/

/-- `writeFile`: creates the first directory of the path, opens the file for writing with
truncation and writes the contents; panics when opening or writing fails. -/
def writeFile (env : Env) (path : Str) (contents : Bytes) : Proc Unit := fun w =>
  if env.canWrite path then
    (.ok (), { w with
      files := fun p => if p = path then some contents else w.files p
      out := w.out ++ [Event.wrote path contents] })
  else (.error Abort.runtimePanic, w)

/-- `generateSshKeyPair`: a fresh key pair; `util.Fatalf` when key generation fails. -/
def generateSshKeyPair (env : Env) : Proc Keypair := fun w =>
  match env.genKey w.keys with
  | none => Fatalf w
  | some kp => (.ok kp, { w with keys := w.keys + 1 })

/-- The case `secret-ssh-key` of `getSecretData`. -/
def sshKeyData (env : Env) (flags : Flags) (name : Str) : Proc Payload := fun w =>
  let r1 := readFile (name ++ "/ssh-key".toList) w
  let r2 := readFile (name ++ "/ssh-key.pub".toList) w
  if (r1.isNone && r2.isNone) && flags.generateSecretsData then
    match generateSshKeyPair env w with
    | (.error a, w1) => (.error a, w1)
    | (.ok keypair, w1) =>
      if flags.writeGeneratedKeys then
        match writeFile env (name ++ "/ssh-key".toList) keypair.priv w1 with
        | (.error a, w2) => (.error a, w2)
        | (.ok _, w2) =>
          match writeFile env (name ++ "/ssh-key.pub".toList) keypair.pub w2 with
          | (.error a, w3) => (.error a, w3)
          | (.ok _, w3) =>
            (.ok ((Payload.set [] "ssh-key".toList keypair.priv).set
              "ssh-key.pub".toList keypair.pub), w3)
      else
        (.ok ((Payload.set [] "ssh-key".toList keypair.priv).set
          "ssh-key.pub".toList keypair.pub), w1)
  else if (r1.isNone || r2.isNone) && flags.generateSecretsData then
    (.ok [], w)
  else
    (.ok ((Payload.set [] "ssh-key".toList (bytesOf r1)).set
      "ssh-key.pub".toList (bytesOf r2)), w)

/-- The loop of the case `secret-ssh-public-key` of `getSecretData`, from the key names still
to do and the payload so far. -/
def sshPublicKeyData (env : Env) (flags : Flags) (name : Str) :
    List Str → Payload → Proc Payload
  | [], data => fun w => (.ok data, w)
  | key :: rest, data => fun w =>
    let r := readFile (name ++ "/".toList ++ key) w
    if r.isNone && flags.generateSecretsData then
      match generateSshKeyPair env w with
      | (.error a, w1) => (.error a, w1)
      | (.ok keypair, w1) =>
        if flags.writeGeneratedKeys then
          match writeFile env (name ++ "/ssh-key.pub".toList) keypair.pub w1 with
          | (.error a, w2) => (.error a, w2)
          | (.ok _, w2) => sshPublicKeyData env flags name rest (data.set key keypair.pub) w2
        else sshPublicKeyData env flags name rest (data.set key keypair.pub) w1
    else sshPublicKeyData env flags name rest (data.set key (bytesOf r)) w

/-- The loop of the case `secret-gpg-key` of `getSecretData`. -/
def gpgKeyData (name : Str) : List Str → Payload → World → Payload
  | [], data, _ => data
  | key :: rest, data, w =>
    gpgKeyData name rest (data.set key (bytesOf (readFile (name ++ "/".toList ++ key) w))) w

/-- The case `secret-maven-settings` of `getSecretData`. -/
def mavenSettingsData (env : Env) (flags : Flags) (name : Str) : Proc Payload := fun w =>
  let r := readFile (name ++ "/settings.xml".toList) w
  if r.isNone && flags.generateSecretsData then
    match env.httpGet with
    | none => Fatalf w
    | some none => Fatalf w
    | some (some mvn) => (.ok (Payload.set [] "settings.xml".toList mvn), w)
  else (.ok (Payload.set [] "settings.xml".toList (bytesOf r)), w)

/-- `getSecretData`: the payload of a secret, by the kind-tag `dataType[1]` of the secret
type. Indexing `dataType[1]` panics when the secret type has no "/". -/
def getSecretData (env : Env) (flags : Flags) (secretType name : Str) (keysNames : List Str) :
    Proc Payload := fun w =>
  match split '/' secretType with
  | _ :: tag :: _ =>
    if tag = "secret-ssh-key".toList then sshKeyData env flags name w
    else if tag = "secret-ssh-public-key".toList then
      sshPublicKeyData env flags name keysNames [] w
    else if tag = "secret-gpg-key".toList then (.ok (gpgKeyData name keysNames [] w), w)
    else if tag = "secret-hub-api-token".toList then
      (.ok (Payload.set [] "hub".toList (bytesOf (readFile (name ++ "/hub".toList) w))), w)
    else if tag = "secret-ssh-config".toList then
      (.ok (Payload.set [] "config".toList (bytesOf (readFile (name ++ "/config".toList) w))), w)
    else if tag = "secret-docker-cfg".toList then
      (.ok (Payload.set [] "config.json".toList
        (bytesOf (readFile (name ++ "/config.json".toList) w))), w)
    else if tag = "secret-maven-settings".toList then mavenSettingsData env flags name w
    else Fatalf w
  | _ => (.error Abort.runtimePanic, w)

/-- `secret`: the secret object named after the identifier, with the payload of
`getSecretData`. -/
def secret (env : Env) (flags : Flags) (name secretType : Str) (keysNames : List Str) :
    Proc Secret := fun w =>
  match getSecretData env flags secretType name keysNames w with
  | (.error a, w1) => (.error a, w1)
  | (.ok data, w1) => (.ok { Name := name, SecretType := secretType, Data := data }, w1)

/-- `createSecret`: builds the secret, looks up the default namespace and calls the cluster
`Create`. -/
def createSecret (env : Env) (flags : Flags) (secretDataIdentifiers secretType : Str)
    (keysNames : List Str) : Proc (Result × Option Str) := fun w =>
  match secret env flags secretDataIdentifiers secretType keysNames w with
  | (.error a, w1) => (.error a, w1)
  | (.ok s, w1) =>
    match env.defaultNamespace with
    | (_, some err) => (.ok (Result.Failure, some err), w1)
    | (ns, none) =>
      let rs := env.create w1.creates ns s
      let w2 : World := { w1 with
        creates := w1.creates + 1
        out := w1.out ++ [Event.created ns s] }
      if rs.1 then (.ok (Result.Success, rs.2), w2) else (.ok (Result.Failure, rs.2), w2)

/-- Modelled from the spec: `printResult`, declared outside the sources: "every attempted
secret creation prints a pass/fail line naming the secret" (spec, section 7). The line is
recorded with the label, the result and the error it is given. -/
def printResult (label : Str) (r : Result) (err : Option Str) : Proc Unit := fun w =>
  (.ok (), { w with out := w.out ++ [Event.printed label r err] })

/-- One attempt of `createAndPrintSecrets`: `createSecret`, `printResult`, and the count
after it (`count++` when the returned error is nil). -/
def attempt (env : Env) (flags : Flags) (name secretType : Str) (keysNames : List Str)
    (count : Nat) : Proc Nat := fun w =>
  match createSecret env flags name secretType keysNames w with
  | (.error a, w1) => (.error a, w1)
  | (.ok (r, err), w1) =>
    match printResult (name ++ " secret".toList) r err w1 with
    | (.error a, w2) => (.error a, w2)
    | (.ok _, w2) => (.ok (if err.isNone then count + 1 else count), w2)

/-- The loop `for i := range items` of the case `secret-ssh-key` of
`createAndPrintSecrets`. -/
def sshKeyLoop (env : Env) (flags : Flags) (secretType : Str) : List Str → Nat → Proc Nat
  | [], count => fun w => (.ok count, w)
  | name :: rest, count => fun w =>
    match attempt env flags name secretType [] count w with
    | (.error a, w1) => (.error a, w1)
    | (.ok count1, w1) => sshKeyLoop env flags secretType rest count1 w1

/-- The separator test of the case `secret-ssh-public-key`. -/
def isSeparator (c : Char) : Bool := c = ',' || c = '[' || c = ']'

/-- The key names of the dispatch table handed over in the default case. -/
def gpgKeyName : List Str :=
  ["gpg.conf".toList, "secring.gpg".toList, "pubring.gpg".toList, "trustdb.gpg".toList]

/-- `createAndPrintSecrets`: the number of secrets created for one annotation. Indexing
`dataType[1]` panics when the secret type has no "/"; with no token in the identifiers the
assignment `keysNames[0] = ..` to the nil slice panics. -/
def createAndPrintSecrets (env : Env) (flags : Flags) (secretDataIdentifiers secretType : Str) :
    Proc Nat := fun w =>
  match split '/' secretType with
  | _ :: tag :: _ =>
    if tag = "secret-ssh-key".toList then
      sshKeyLoop env flags secretType (split ',' secretDataIdentifiers) 0 w
    else if tag = "secret-ssh-public-key".toList then
      match fieldsFunc isSeparator secretDataIdentifiers with
      | name :: keysNames => attempt env flags name secretType keysNames 0 w
      | [] => (.error Abort.runtimePanic, w)
    else attempt env flags secretDataIdentifiers secretType gpgKeyName 0 w
  | _ => (.error Abort.runtimePanic, w)

/-- The objects of a decoded template: a replication controller with the annotations of
its pod template, in the order the `range` over the map visits them, or anything else. -/
inductive Object where
  | replicationController (annotations : List (Str × Str))
  | other
deriving DecidableEq, Repr

/-- The loop over the annotations of one replication controller:
`count += createAndPrintSecrets(secretDataIdentifiers, secretType, ..)`. -/
def annotationsLoop (env : Env) (flags : Flags) : List (Str × Str) → Nat → Proc Nat
  | [], count => fun w => (.ok count, w)
  | (secretType, secretDataIdentifiers) :: rest, count => fun w =>
    match createAndPrintSecrets env flags secretDataIdentifiers secretType w with
    | (.error a, w1) => (.error a, w1)
    | (.ok n, w1) => annotationsLoop env flags rest (count + n) w1

/-- The loop over the objects of a template. -/
def objectsLoop (env : Env) (flags : Flags) : List Object → Nat → Proc Nat
  | [], count => fun w => (.ok count, w)
  | Object.replicationController annotations :: rest, count => fun w =>
    match annotationsLoop env flags annotations count w with
    | (.error a, w1) => (.error a, w1)
    | (.ok count1, w1) => objectsLoop env flags rest count1 w1
  | Object.other :: rest, count => objectsLoop env flags rest count

/-- `processSecretsForTemplate`: `os.Exit(2)` when `runtime.DecodeList` reports errors
(`decodeErrors` is their number), otherwise the count over the objects of the template. -/
def processSecretsForTemplate (env : Env) (flags : Flags) (decodeErrors : Nat)
    (objects : List Object) : Proc Nat := fun w =>
  if decodeErrors > 0 then (.error Abort.fatal, w)
  else objectsLoop env flags objects 0 w

/-- The kind-tags of the dispatch table of `getSecretData`. -/
def knownTags : List Str :=
  ["secret-ssh-key".toList, "secret-ssh-public-key".toList, "secret-gpg-key".toList,
   "secret-hub-api-token".toList, "secret-ssh-config".toList, "secret-docker-cfg".toList,
   "secret-maven-settings".toList]

/-- The payload that holds, for each key name, the bytes read from `name/key` (empty when
the file is unreadable). -/
def importedPayload (name : Str) (keys : List Str) (w : World) : Payload :=
  keys.map (fun k => (k, bytesOf (readFile (name ++ "/".toList ++ k) w)))

/-- The pass/fail lines among the events: the label and the error handed to `printResult`. -/
def printedOf : List Event → List (Str × Option Str)
  | [] => []
  | Event.printed label _ err :: rest => (label, err) :: printedOf rest
  | _ :: rest => printedOf rest

/-- The secrets handed to the cluster `Create` among the events. -/
def createdOf : List Event → List Secret
  | [] => []
  | Event.created _ s :: rest => s :: createdOf rest
  | _ :: rest => createdOf rest

/-- Local resolution cannot end the process: generation is off, or key generation always
succeeds and write-back is off or every write succeeds. -/
def LocalOk (env : Env) (flags : Flags) : Prop :=
  flags.generateSecretsData = false ∨
    ((∀ n, (env.genKey n).isSome = true) ∧
      (flags.writeGeneratedKeys = false ∨ ∀ p, env.canWrite p = true))

/-- An identifier string of the shape `k1,k2,...,kn`. -/
def joinComma : List Str → Str
  | [] => []
  | [k] => k
  | k :: rest => k ++ ',' :: joinComma rest

/-- A world with the given readable files, in which nothing has happened yet. -/
def worldOf (files : List (Str × Bytes)) : World where
  files := fun p => files.lookup p
  keys := 0
  creates := 0
  out := []

/-- An environment in which everything succeeds: the `n`-th key pair is `[n, 1]` / `[n, 2]`,
the default settings are `[7]`, the namespace is `ns`, and every `Create` returns the
object without error. -/
def friendlyEnv : Env where
  genKey := fun n => some ⟨[n, 1], [n, 2]⟩
  canWrite := fun _ => true
  httpGet := some (some [7])
  defaultNamespace := ("ns".toList, none)
  create := fun _ _ _ => (true, none)

/-- The friendly environment with a read-only working directory: no file can be opened
for writing. -/
def readOnlyEnv : Env := { friendlyEnv with canWrite := fun _ => false }

/-- The friendly environment with a cluster that rejects the first `Create` call. -/
def flakyEnv : Env :=
  { friendlyEnv with
    create := fun n _ _ => if n = 0 then (false, some "rejected".toList) else (true, none) }

/-- The friendly environment without network: `http.Get` fails. -/
def offlineEnv : Env := { friendlyEnv with httpGet := none }

/-- The default flags of the `secrets` command. -/
def defaultFlags : Flags where
  printImportFolderStructure := true
  writeGeneratedKeys := false
  generateSecretsData := true

/-- The rows of the dispatch table of the spec (section 4.3) whose fallback is "warned
only": the kind-tag and the key names of its payload. -/
def warnedOnlyTable : List (Str × List Str) :=
  [("secret-gpg-key".toList,
      ["gpg.conf".toList, "secring.gpg".toList, "pubring.gpg".toList, "trustdb.gpg".toList]),
   ("secret-hub-api-token".toList, ["hub".toList]),
   ("secret-ssh-config".toList, ["config".toList]),
   ("secret-docker-cfg".toList, ["config.json".toList])]

/-- A string that contains none of ",", "[" and "]". -/
abbrev NoSeparator (s : Str) : Prop := ',' ∉ s ∧ '[' ∉ s ∧ ']' ∉ s

/-- An identifier string of the shape `name[k1,k2,...,kn]`. -/
def publicKeyIdentifiers (name : Str) (keys : List Str) : Str :=
  name ++ '[' :: (joinComma keys ++ [']'])

/-- The friendly environment with a cluster whose `Create` returns an object together
with an error. -/
def conflictEnv : Env :=
  { friendlyEnv with create := fun _ _ _ => (true, some "already exists".toList) }

/-- The friendly environment with a cluster whose `Create` returns neither an object nor
an error. -/
def silentEnv : Env := { friendlyEnv with create := fun _ _ _ => (false, none) }

/-- The outcomes of the cluster `Create` are consistent: the returned object is non-nil
exactly when the returned error is nil. -/
def ConsistentCreate (env : Env) : Prop :=
  ∀ n ns s, (env.create n ns s).1 = true ↔ (env.create n ns s).2 = none

/-! ### The cases of `TestGetProject` -/

theorem test_moto_unrelated :
    detectCurrentUserProject "moto".toList (projects ["foo-che", "bar-che", "foo", "moto"])
      = "foo".toList := by decide

theorem test_bar_che :
    detectCurrentUserProject "bar-che".toList (projects ["foo-che", "bar-che", "foo", "bar"])
      = "bar".toList := by decide

theorem test_bar_jenkins :
    detectCurrentUserProject "bar-jenkins".toList (projects ["foo-che", "bar-che", "foo", "bar"])
      = "bar".toList := by decide

theorem test_no_parent :
    detectCurrentUserProject "moto".toList (projects ["foo-che", "moto"]) = [] := by decide

theorem test_hellomoto :
    detectCurrentUserProject "hellomoto".toList (projects ["foo", "foo-jenkins", "hellomoto"])
      = "foo".toList := by decide

/-! ## Project resolver: lemmas -/

theorem trimSuffix_append (b s : Str) : trimSuffix (b ++ s) s = some b := by
  have h : s.isSuffixOf (b ++ s) = true := by
    rw [List.isSuffixOf_iff_suffix]
    exact List.suffix_append b s
  simp [trimSuffix, h]

theorem trimSuffix_eq_some {x s b : Str} (h : trimSuffix x s = some b) : x = b ++ s := by
  unfold trimSuffix at h
  split at h
  · rename_i hs
    rw [List.isSuffixOf_iff_suffix, List.suffix_iff_eq_append] at hs
    simp only [Option.some.injEq] at h
    rw [← h]
    exact hs.symm
  · exact absurd h (by simp)

theorem not_che_suffix_of_jenkins (b : Str) :
    trimSuffix (b ++ "-jenkins".toList) "-che".toList = none := by
  have h : List.isSuffixOf "-che".toList (b ++ "-jenkins".toList) = false := by
    simp [List.isSuffixOf, List.isPrefixOf]
  unfold trimSuffix
  rw [h]
  simp

theorem stripSuffix_che (b : Str) : stripSuffix (b ++ "-che".toList) = some b := by
  simp [stripSuffix, suffixes, List.findSome?, trimSuffix_append]

theorem stripSuffix_jenkins (b : Str) : stripSuffix (b ++ "-jenkins".toList) = some b := by
  simp only [stripSuffix, suffixes, List.findSome?, not_che_suffix_of_jenkins,
    trimSuffix_append]

theorem stripSuffix_append (b s : Str) (hs : s ∈ suffixes) : stripSuffix (b ++ s) = some b := by
  simp only [suffixes, List.mem_cons, List.mem_singleton, List.not_mem_nil, or_false] at hs
  rcases hs with rfl | rfl
  · exact stripSuffix_che b
  · exact stripSuffix_jenkins b

theorem stripSuffix_eq_some {x b : Str} (h : stripSuffix x = some b) :
    ∃ s ∈ suffixes, x = b ++ s := by
  unfold stripSuffix at h
  obtain ⟨s, hs, hsb⟩ := List.exists_of_findSome?_eq_some h
  exact ⟨s, hs, trimSuffix_eq_some hsb⟩

theorem isQualifyingBase_iff (names : List Str) (p : Str) :
    isQualifyingBase names p = true ↔ BaseWithSibling names p := by
  simp [isQualifyingBase, hasDerivedSibling, BaseWithSibling, and_assoc]

theorem isQualifyingBase_eq_false_iff (names : List Str) (p : Str) :
    isQualifyingBase names p = false ↔ ¬ BaseWithSibling names p := by
  rw [← isQualifyingBase_iff, Bool.not_eq_true]

/-- With no listed derived project whose base is listed, no project qualifies. -/
theorem not_qualifying_of_no_base (names : List Str)
    (h : ∀ p ∈ names, ∀ b, stripSuffix p = some b → b ∉ names) (q : Str) :
    isQualifyingBase names q = false := by
  rw [Bool.eq_false_iff]
  intro hq
  obtain ⟨hmem, _, s, hs, hsib⟩ := (isQualifyingBase_iff names q).1 hq
  exact h (q ++ s) hsib q (stripSuffix_append q s hs) hmem

/-- The fallback picks the first qualifying project of the list. -/
theorem firstQualifying_eq (names pre post : List Str) (p : Str)
    (hsplit : names = pre ++ p :: post) (hp : isQualifyingBase names p = true)
    (hpre : ∀ q ∈ pre, isQualifyingBase names q = false) : firstQualifying names = p := by
  have hfind : names.find? (isQualifyingBase names) = some p := by
    rw [List.find?_eq_some]
    refine ⟨hp, pre, post, hsplit, ?_⟩
    intro a ha
    simp [hpre a ha]
  simp [firstQualifying, hfind]

theorem firstQualifying_eq_nil (names : List Str)
    (h : ∀ q, isQualifyingBase names q = false) : firstQualifying names = [] := by
  have hfind : names.find? (isQualifyingBase names) = none := by
    rw [List.find?_eq_none]
    intro x _
    simp [h x]
  simp [firstQualifying, hfind]

/-! ## Project resolver: claims -/

/-- C1: for every project list that contains a project named `b`, a current namespace equal
to `b` followed by "-che" or by "-jenkins" resolves to `b`, whether or not the decorated name
is itself listed. -/
theorem detect_derived_resolves_to_base (b : Str) (items : List Project)
    (hb : b ∈ projectNames items) :
    detectCurrentUserProject (b ++ "-che".toList) items = b ∧
    detectCurrentUserProject (b ++ "-jenkins".toList) items = b := by
  constructor
  · simp only [detectCurrentUserProject, stripSuffix_che]
    simp [hb]
  · simp only [detectCurrentUserProject, stripSuffix_jenkins]
    simp [hb]

theorem detect_derived_resolves_to_base_witness :
    "bar".toList ∈ projectNames (projects ["foo-che", "bar-che", "foo", "bar"]) ∧
    detectCurrentUserProject ("bar".toList ++ "-che".toList)
      (projects ["foo-che", "bar-che", "foo", "bar"]) = "bar".toList ∧
    detectCurrentUserProject ("bar".toList ++ "-jenkins".toList)
      (projects ["foo-che", "bar-che", "foo", "bar"]) = "bar".toList :=
  ⟨by decide, detect_derived_resolves_to_base "bar".toList
    (projects ["foo-che", "bar-che", "foo", "bar"]) (by decide)⟩

/-- In `{foo-che, moto}` no listed derived project has its base listed. -/
theorem no_base_in_foo_che_moto :
    ∀ p ∈ projectNames (projects ["foo-che", "moto"]), ∀ b, stripSuffix p = some b →
      b ∉ projectNames (projects ["foo-che", "moto"]) := by
  intro p hp b hb
  have hp2 : p = "foo-che".toList ∨ p = "moto".toList := by
    simpa [projectNames, projects] using hp
  rcases hp2 with rfl | rfl
  · have h1 : stripSuffix "foo-che".toList = some "foo".toList := by decide
    rw [h1] at hb
    cases hb
    decide
  · have h1 : stripSuffix "moto".toList = none := by decide
    rw [h1] at hb
    cases hb

/-- C8 as stated fails: the list `{foo-che, moto}` contains a "-che" project and no base of
a listed derived project, yet the current namespace `moto-che` resolves to `moto`, not to
the empty string. -/
theorem detect_no_base_counterexample :
    (∃ x : Str, x ++ "-che".toList ∈ projectNames (projects ["foo-che", "moto"])) ∧
    (∀ p ∈ projectNames (projects ["foo-che", "moto"]), ∀ b, stripSuffix p = some b →
      b ∉ projectNames (projects ["foo-che", "moto"])) ∧
    detectCurrentUserProject "moto-che".toList (projects ["foo-che", "moto"]) ≠ [] :=
  ⟨⟨"foo".toList, by decide⟩, no_base_in_foo_che_moto, by decide⟩

/-- C8, amended: when the list contains a "-che" project and no listed derived project has
its base listed, the result is the empty string for every current namespace that is not a
listed name followed by a recognised suffix, listed current namespaces included. -/
theorem detect_no_base_empty (items : List Project) (current : Str)
    (_hche : ∃ x : Str, x ++ "-che".toList ∈ projectNames items)
    (hno : ∀ p ∈ projectNames items, ∀ b, stripSuffix p = some b → b ∉ projectNames items)
    (hcur : ∀ b, stripSuffix current = some b → b ∉ projectNames items) :
    detectCurrentUserProject current items = [] := by
  have hq := not_qualifying_of_no_base (projectNames items) hno
  have hf := firstQualifying_eq_nil (projectNames items) hq
  unfold detectCurrentUserProject
  cases hs : stripSuffix current with
  | none => simp [hq current, hf]
  | some base => simp [hcur base hs, hf]

theorem detect_no_base_empty_witness :
    detectCurrentUserProject "moto".toList (projects ["foo-che", "moto"]) = [] :=
  detect_no_base_empty (projects ["foo-che", "moto"]) "moto".toList
    ⟨"foo".toList, by decide⟩ no_base_in_foo_che_moto
    (by
      intro b hb
      have h1 : stripSuffix "moto".toList = none := by decide
      rw [h1] at hb
      cases hb)

/-- C9: when the current namespace is neither a listed base with a derived sibling nor a
listed name followed by a recognised suffix, the result is the first project in input order
that is a base project with a derived sibling in the list, and it is not the current
namespace. -/
theorem detect_unrelated_first_qualifying (items : List Project) (current : Str)
    (pre post : List Str) (p : Str)
    (hbase : ¬ BaseWithSibling (projectNames items) current)
    (hder : ∀ q ∈ projectNames items, ∀ s ∈ suffixes, current ≠ q ++ s)
    (hsplit : projectNames items = pre ++ p :: post)
    (hp : BaseWithSibling (projectNames items) p)
    (hpre : ∀ q ∈ pre, ¬ BaseWithSibling (projectNames items) q) :
    detectCurrentUserProject current items = p ∧ p ≠ current := by
  have hf : firstQualifying (projectNames items) = p :=
    firstQualifying_eq (projectNames items) pre post p hsplit
      ((isQualifyingBase_iff _ _).2 hp)
      (fun q hq => (isQualifyingBase_eq_false_iff _ _).2 (hpre q hq))
  have hb : isQualifyingBase (projectNames items) current = false :=
    (isQualifyingBase_eq_false_iff _ _).2 hbase
  refine ⟨?_, fun h => hbase (h ▸ hp)⟩
  unfold detectCurrentUserProject
  cases hs : stripSuffix current with
  | none => simp [hb, hf]
  | some base =>
    obtain ⟨s, hsuf, hcur⟩ := stripSuffix_eq_some hs
    have hnot : base ∉ projectNames items := fun hmem => hder base hmem s hsuf hcur
    simp [hnot, hf]

theorem detect_unrelated_first_qualifying_witness :
    detectCurrentUserProject "hellomoto".toList (projects ["foo", "foo-jenkins", "hellomoto"])
      = "foo".toList ∧ "foo".toList ≠ "hellomoto".toList :=
  detect_unrelated_first_qualifying (projects ["foo", "foo-jenkins", "hellomoto"])
    "hellomoto".toList [] ["foo-jenkins".toList, "hellomoto".toList] "foo".toList
    (by rw [← isQualifyingBase_iff]; decide)
    (by decide)
    (by decide)
    (by rw [← isQualifyingBase_iff]; decide)
    (by simp)

/-! ## Secret provisioning: lemmas on strings -/

theorem split_of_not_mem (sep : Char) (s : Str) (h : sep ∉ s) : split sep s = [s] := by
  induction s with
  | nil => rfl
  | cons c cs ih =>
    have hc : c ≠ sep := fun e => h (by simp [e])
    have hcs : sep ∉ cs := fun e => h (by simp [e])
    simp [split, hc, ih hcs]

theorem split_append_sep (sep : Char) (pre rest : Str) (h : sep ∉ pre) :
    split sep (pre ++ sep :: rest) = pre :: split sep rest := by
  induction pre with
  | nil => simp [split]
  | cons c cs ih =>
    have hc : c ≠ sep := fun e => h (by simp [e])
    have hcs : sep ∉ cs := fun e => h (by simp [e])
    simp [split, hc, ih hcs]

/-- The secret type `pre/tag` splits into the prefix and the kind-tag. -/
theorem split_secretType (pre tag : Str) (hpre : '/' ∉ pre) (htag : '/' ∉ tag) :
    split '/' (pre ++ '/' :: tag) = [pre, tag] := by
  rw [split_append_sep '/' pre tag hpre, split_of_not_mem '/' tag htag]

/-! ## Secret provisioning: the dispatch on the kind-tag -/

theorem getSecretData_tag (env : Env) (flags : Flags) (pre tag name : Str)
    (keysNames : List Str) (w : World) (hpre : '/' ∉ pre) (htag : '/' ∉ tag) :
    getSecretData env flags (pre ++ '/' :: tag) name keysNames w =
      if tag = "secret-ssh-key".toList then sshKeyData env flags name w
      else if tag = "secret-ssh-public-key".toList then
        sshPublicKeyData env flags name keysNames [] w
      else if tag = "secret-gpg-key".toList then (.ok (gpgKeyData name keysNames [] w), w)
      else if tag = "secret-hub-api-token".toList then
        (.ok (Payload.set [] "hub".toList (bytesOf (readFile (name ++ "/hub".toList) w))), w)
      else if tag = "secret-ssh-config".toList then
        (.ok (Payload.set [] "config".toList
          (bytesOf (readFile (name ++ "/config".toList) w))), w)
      else if tag = "secret-docker-cfg".toList then
        (.ok (Payload.set [] "config.json".toList
          (bytesOf (readFile (name ++ "/config.json".toList) w))), w)
      else if tag = "secret-maven-settings".toList then mavenSettingsData env flags name w
      else Fatalf w := by
  unfold getSecretData
  rw [split_secretType pre tag hpre htag]

theorem createAndPrintSecrets_tag (env : Env) (flags : Flags) (pre tag ids : Str) (w : World)
    (hpre : '/' ∉ pre) (htag : '/' ∉ tag) :
    createAndPrintSecrets env flags ids (pre ++ '/' :: tag) w =
      if tag = "secret-ssh-key".toList then
        sshKeyLoop env flags (pre ++ '/' :: tag) (split ',' ids) 0 w
      else if tag = "secret-ssh-public-key".toList then
        match fieldsFunc isSeparator ids with
        | name :: keysNames => attempt env flags name (pre ++ '/' :: tag) keysNames 0 w
        | [] => (.error Abort.runtimePanic, w)
      else attempt env flags ids (pre ++ '/' :: tag) gpgKeyName 0 w := by
  unfold createAndPrintSecrets
  rw [split_secretType pre tag hpre htag]

/-- An abort of `getSecretData` ends the attempt with the same abort and world. -/
theorem attempt_of_getSecretData_error (env : Env) (flags : Flags) (name secretType : Str)
    (keysNames : List Str) (count : Nat) (w w1 : World) (a : Abort)
    (h : getSecretData env flags secretType name keysNames w = (.error a, w1)) :
    attempt env flags name secretType keysNames count w = (.error a, w1) := by
  simp [attempt, createSecret, secret, h]

/-! ## Secret provisioning: claims -/

/-- C3: for every secret type `pre/tag` whose kind-tag is not in the dispatch table, every
identifier string, flag setting, environment and world, `createAndPrintSecrets` ends in the
fatal branch of `getSecretData`: it returns no count, and the world is the one it started
from, so no cluster `Create` call and no result line precede the abort. -/
theorem unknown_kind_is_fatal (env : Env) (flags : Flags) (pre tag ids : Str) (w : World)
    (hpre : '/' ∉ pre) (htag : '/' ∉ tag) (hunknown : tag ∉ knownTags) :
    getSecretData env flags (pre ++ '/' :: tag) ids gpgKeyName w = (.error Abort.fatal, w) ∧
    createAndPrintSecrets env flags ids (pre ++ '/' :: tag) w = (.error Abort.fatal, w) := by
  simp only [knownTags, List.mem_cons, List.mem_singleton, List.not_mem_nil, or_false,
    not_or] at hunknown
  obtain ⟨h1, h2, h3, h4, h5, h6, h7⟩ := hunknown
  have hdata : getSecretData env flags (pre ++ '/' :: tag) ids gpgKeyName w
      = (.error Abort.fatal, w) := by
    rw [getSecretData_tag env flags pre tag ids gpgKeyName w hpre htag]
    rw [if_neg h1, if_neg h2, if_neg h3, if_neg h4, if_neg h5, if_neg h6, if_neg h7]
    rfl
  refine ⟨hdata, ?_⟩
  rw [createAndPrintSecrets_tag env flags pre tag ids w hpre htag, if_neg h1, if_neg h2]
  exact attempt_of_getSecretData_error env flags ids _ gpgKeyName 0 w w Abort.fatal hdata

theorem unknown_kind_is_fatal_witness :
    getSecretData friendlyEnv defaultFlags ("fabric8.io".toList ++ '/' :: "secret-token".toList)
        "x".toList gpgKeyName (worldOf []) = (.error Abort.fatal, worldOf []) ∧
    createAndPrintSecrets friendlyEnv defaultFlags "x".toList
        ("fabric8.io".toList ++ '/' :: "secret-token".toList) (worldOf [])
      = (.error Abort.fatal, worldOf []) :=
  unknown_kind_is_fatal friendlyEnv defaultFlags "fabric8.io".toList "secret-token".toList
    "x".toList (worldOf []) (by decide) (by decide) (by decide)

/-! ### No local write without `write-generated-keys` -/

theorem generateSshKeyPair_frame (env : Env) (w : World) :
    (generateSshKeyPair env w).2.files = w.files ∧ (generateSshKeyPair env w).2.out = w.out := by
  unfold generateSshKeyPair
  cases env.genKey w.keys <;> simp [Fatalf]

theorem sshKeyData_frame (env : Env) (flags : Flags) (name : Str) (w : World)
    (h : flags.writeGeneratedKeys = false) :
    (sshKeyData env flags name w).2.files = w.files ∧
    (sshKeyData env flags name w).2.out = w.out := by
  have hg := generateSshKeyPair_frame env w
  unfold sshKeyData
  simp only [h]
  split
  · cases hk : generateSshKeyPair env w with
    | mk r w1 =>
      rw [hk] at hg
      cases r <;> simpa using hg
  · split <;> simp

theorem sshPublicKeyData_frame (env : Env) (flags : Flags) (name : Str)
    (h : flags.writeGeneratedKeys = false) (keysNames : List Str) :
    ∀ (data : Payload) (w : World),
      (sshPublicKeyData env flags name keysNames data w).2.files = w.files ∧
      (sshPublicKeyData env flags name keysNames data w).2.out = w.out := by
  induction keysNames with
  | nil => intro data w; simp [sshPublicKeyData]
  | cons key rest ih =>
    intro data w
    have hg := generateSshKeyPair_frame env w
    unfold sshPublicKeyData
    simp only [h]
    split
    · cases hk : generateSshKeyPair env w with
      | mk r w1 =>
        rw [hk] at hg
        cases r with
        | error a => simpa using hg
        | ok keypair =>
          have := ih (data.set key keypair.pub) w1
          simp only [Bool.false_eq_true, if_false]
          exact ⟨this.1.trans hg.1, this.2.trans hg.2⟩
    · exact ih _ w

theorem mavenSettingsData_world (env : Env) (flags : Flags) (name : Str) (w : World) :
    (mavenSettingsData env flags name w).2 = w := by
  unfold mavenSettingsData
  simp only
  split
  · split <;> rfl
  · rfl

/-- C5: when `write-generated-keys` is not "true", `getSecretData` writes nothing, whatever
the secret type, identifier, key names, local files, environment and other flags: the local
files after the call are the files before it, and no event (so no write) is added. -/
theorem no_write_without_flag (env : Env) (flags : Flags) (secretType name : Str)
    (keysNames : List Str) (w : World) (h : flags.writeGeneratedKeys = false) :
    (getSecretData env flags secretType name keysNames w).2.files = w.files ∧
    (getSecretData env flags secretType name keysNames w).2.out = w.out := by
  unfold getSecretData
  split
  · split
    · exact sshKeyData_frame env flags name w h
    · split
      · exact sshPublicKeyData_frame env flags name h keysNames [] w
      · split
        · exact ⟨rfl, rfl⟩
        · split
          · exact ⟨rfl, rfl⟩
          · split
            · exact ⟨rfl, rfl⟩
            · split
              · exact ⟨rfl, rfl⟩
              · split
                · rw [mavenSettingsData_world]
                  exact ⟨rfl, rfl⟩
                · exact ⟨rfl, rfl⟩
  · exact ⟨rfl, rfl⟩

theorem no_write_without_flag_witness :
    (getSecretData friendlyEnv defaultFlags "fabric8.io/secret-ssh-key".toList "a".toList []
      (worldOf [])).2.files = (worldOf []).files ∧
    (getSecretData friendlyEnv defaultFlags "fabric8.io/secret-ssh-key".toList "a".toList []
      (worldOf [])).2.out = (worldOf []).out :=
  no_write_without_flag friendlyEnv defaultFlags "fabric8.io/secret-ssh-key".toList "a".toList []
    (worldOf []) rfl

/-! ### Partial key pairs -/

/-- C2 as stated fails: with `a/ssh-key` readable, `a/ssh-key.pub` unreadable and
`generate-secrets-data` true, the payload returned for kind `secret-ssh-key` is empty: it
holds neither "ssh-key" nor "ssh-key.pub". -/
theorem partial_pair_counterexample :
    readFile "a/ssh-key".toList (worldOf [("a/ssh-key".toList, [9])]) = some [9] ∧
    readFile "a/ssh-key.pub".toList (worldOf [("a/ssh-key".toList, [9])]) = none ∧
    defaultFlags.generateSecretsData = true ∧
    (getSecretData friendlyEnv defaultFlags "fabric8.io/secret-ssh-key".toList "a".toList []
      (worldOf [("a/ssh-key".toList, [9])])).1 = .ok [] ∧
    "ssh-key".toList ∉ Payload.keys [] :=
  ⟨rfl, rfl, rfl, rfl, by decide⟩

/-- C2, amended: for kind `secret-ssh-key`, when exactly one of `name/ssh-key` and
`name/ssh-key.pub` is readable, `getSecretData` returns without touching the world; when
`generate-secrets-data` is not true the payload holds both keys, the readable file's bytes
under its key and empty bytes under the other; when it is true the payload is empty. -/
theorem partial_pair_payload (env : Env) (flags : Flags) (pre name : Str)
    (keysNames : List Str) (w : World) (hpre : '/' ∉ pre)
    (hone : (readFile (name ++ "/ssh-key".toList) w).isSome ≠
      (readFile (name ++ "/ssh-key.pub".toList) w).isSome) :
    getSecretData env flags (pre ++ '/' :: "secret-ssh-key".toList) name keysNames w =
      (.ok (if flags.generateSecretsData then []
        else [("ssh-key".toList, bytesOf (readFile (name ++ "/ssh-key".toList) w)),
              ("ssh-key.pub".toList, bytesOf (readFile (name ++ "/ssh-key.pub".toList) w))]),
       w) := by
  rw [getSecretData_tag env flags pre _ name keysNames w hpre (by decide), if_pos rfl]
  unfold sshKeyData
  revert hone
  cases h1 : readFile (name ++ "/ssh-key".toList) w <;>
    cases h2 : readFile (name ++ "/ssh-key.pub".toList) w <;>
    intro hone <;>
    simp at hone <;>
    cases hg : flags.generateSecretsData <;>
    simp [Payload.set, bytesOf]

theorem partial_pair_payload_witness :
    getSecretData friendlyEnv ⟨true, false, false⟩
        ("fabric8.io".toList ++ '/' :: "secret-ssh-key".toList) "a".toList []
        (worldOf [("a/ssh-key".toList, [9])])
      = (.ok [("ssh-key".toList, [9]), ("ssh-key.pub".toList, [])],
         worldOf [("a/ssh-key".toList, [9])]) :=
  partial_pair_payload friendlyEnv ⟨true, false, false⟩ "fabric8.io".toList "a".toList []
    (worldOf [("a/ssh-key".toList, [9])]) (by decide) (by decide)

/-! ### Failure of the default maven settings fetch -/

theorem maven_fetch_failure (env : Env) (flags : Flags) (name : Str) (w : World)
    (hunreadable : readFile (name ++ "/settings.xml".toList) w = none)
    (hgen : flags.generateSecretsData = true)
    (hfetch : env.httpGet = none ∨ env.httpGet = some none) :
    mavenSettingsData env flags name w = (.error Abort.fatal, w) := by
  unfold mavenSettingsData
  rw [hunreadable]
  rcases hfetch with h | h <;> simp [hgen, h, Fatalf]

/-- C7 as stated fails: without network, the unreadable maven settings of the first
requirement end the whole run in `util.Fatalf`: no result line is printed for it, the second
requirement (a hub token) is never processed and no count is returned. -/
theorem maven_fetch_counterexample :
    (processSecretsForTemplate offlineEnv defaultFlags 0
      [Object.replicationController
        [("fabric8.io/secret-maven-settings".toList, "m".toList),
         ("fabric8.io/secret-hub-api-token".toList, "h".toList)]] (worldOf [])).1
      = .error Abort.fatal ∧
    (processSecretsForTemplate offlineEnv defaultFlags 0
      [Object.replicationController
        [("fabric8.io/secret-maven-settings".toList, "m".toList),
         ("fabric8.io/secret-hub-api-token".toList, "h".toList)]] (worldOf [])).2.out = [] ∧
    (processSecretsForTemplate friendlyEnv defaultFlags 0
      [Object.replicationController
        [("fabric8.io/secret-maven-settings".toList, "m".toList),
         ("fabric8.io/secret-hub-api-token".toList, "h".toList)]] (worldOf [])).1 = .ok 2 :=
  ⟨rfl, rfl, rfl⟩

/-- C7, amended: for kind `secret-maven-settings` with `name/settings.xml` unreadable and
`generate-secrets-data` true, a failure of the HTTP GET or of reading its body is fatal to
the whole run: `createAndPrintSecrets` ends in `util.Fatalf` before any `Create` call or
result line, and `processSecretsForTemplate` ends there too, whatever requirements and
objects remain. -/
theorem maven_fetch_failure_is_fatal (env : Env) (flags : Flags) (pre name : Str)
    (rest : List (Str × Str)) (objects : List Object) (w : World) (hpre : '/' ∉ pre)
    (hunreadable : readFile (name ++ "/settings.xml".toList) w = none)
    (hgen : flags.generateSecretsData = true)
    (hfetch : env.httpGet = none ∨ env.httpGet = some none) :
    createAndPrintSecrets env flags name (pre ++ '/' :: "secret-maven-settings".toList) w
      = (.error Abort.fatal, w) ∧
    processSecretsForTemplate env flags 0
      (Object.replicationController
        ((pre ++ '/' :: "secret-maven-settings".toList, name) :: rest) :: objects) w
      = (.error Abort.fatal, w) := by
  have hdata : getSecretData env flags (pre ++ '/' :: "secret-maven-settings".toList) name
      gpgKeyName w = (.error Abort.fatal, w) := by
    rw [getSecretData_tag env flags pre _ name gpgKeyName w hpre (by decide)]
    rw [if_neg (by decide), if_neg (by decide), if_neg (by decide), if_neg (by decide),
      if_neg (by decide), if_neg (by decide), if_pos rfl]
    exact maven_fetch_failure env flags name w hunreadable hgen hfetch
  have hrun : createAndPrintSecrets env flags name
      (pre ++ '/' :: "secret-maven-settings".toList) w = (.error Abort.fatal, w) := by
    rw [createAndPrintSecrets_tag env flags pre _ name w hpre (by decide),
      if_neg (by decide), if_neg (by decide)]
    exact attempt_of_getSecretData_error env flags name _ gpgKeyName 0 w w Abort.fatal hdata
  refine ⟨hrun, ?_⟩
  unfold processSecretsForTemplate
  simp only [gt_iff_lt, lt_self_iff_false, if_false, objectsLoop, annotationsLoop, hrun]

theorem maven_fetch_failure_is_fatal_witness :
    createAndPrintSecrets offlineEnv defaultFlags "m".toList
        ("fabric8.io".toList ++ '/' :: "secret-maven-settings".toList) (worldOf [])
      = (.error Abort.fatal, worldOf []) ∧
    processSecretsForTemplate offlineEnv defaultFlags 0
      (Object.replicationController
        (("fabric8.io".toList ++ '/' :: "secret-maven-settings".toList, "m".toList) ::
          [("fabric8.io/secret-hub-api-token".toList, "h".toList)]) :: []) (worldOf [])
      = (.error Abort.fatal, worldOf []) :=
  maven_fetch_failure_is_fatal offlineEnv defaultFlags "fabric8.io".toList "m".toList
    [("fabric8.io/secret-hub-api-token".toList, "h".toList)] [] (worldOf []) (by decide)
    rfl rfl (Or.inl rfl)

/-! ### The warned-only kinds -/

theorem importedPayload_keys (name : Str) (keys : List Str) (w : World) :
    (importedPayload name keys w).keys = keys := by
  simp [importedPayload, Payload.keys, Function.comp_def]

/-- C10: for each warned-only kind (gpg key, hub token, ssh config, docker cfg), every
identifier, world, environment and flag setting, `createAndPrintSecrets` makes one attempt
with the identifier as name, the secret built for it has exactly the key names of the
dispatch table, each with the bytes read from `identifier/key` (empty when unreadable), the
world is left as it was, and the payload does not depend on the flags. -/
theorem warned_only_payload (env : Env) (flags flags2 : Flags) (pre tag ids : Str)
    (keys : List Str) (w : World) (hpre : '/' ∉ pre) (hkind : (tag, keys) ∈ warnedOnlyTable) :
    createAndPrintSecrets env flags ids (pre ++ '/' :: tag) w
      = attempt env flags ids (pre ++ '/' :: tag) gpgKeyName 0 w ∧
    secret env flags ids (pre ++ '/' :: tag) gpgKeyName w
      = (.ok ⟨ids, pre ++ '/' :: tag, importedPayload ids keys w⟩, w) ∧
    getSecretData env flags (pre ++ '/' :: tag) ids gpgKeyName w
      = (.ok (importedPayload ids keys w), w) ∧
    (importedPayload ids keys w).keys = keys ∧
    getSecretData env flags2 (pre ++ '/' :: tag) ids gpgKeyName w
      = getSecretData env flags (pre ++ '/' :: tag) ids gpgKeyName w := by
  have hdata : ∀ fl : Flags, getSecretData env fl (pre ++ '/' :: tag) ids gpgKeyName w
      = (.ok (importedPayload ids keys w), w) := by
    intro fl
    simp only [warnedOnlyTable, List.mem_cons, List.mem_singleton, List.not_mem_nil, or_false,
      Prod.mk.injEq] at hkind
    rcases hkind with ⟨rfl, rfl⟩ | ⟨rfl, rfl⟩ | ⟨rfl, rfl⟩ | ⟨rfl, rfl⟩
    · rw [getSecretData_tag env fl pre _ ids gpgKeyName w hpre (by decide)]
      rw [if_neg (by decide), if_neg (by decide), if_pos rfl]
      simp [gpgKeyData, gpgKeyName, Payload.set, importedPayload]
    · rw [getSecretData_tag env fl pre _ ids gpgKeyName w hpre (by decide)]
      rw [if_neg (by decide), if_neg (by decide), if_neg (by decide), if_pos rfl]
      simp [Payload.set, importedPayload]
    · rw [getSecretData_tag env fl pre _ ids gpgKeyName w hpre (by decide)]
      rw [if_neg (by decide), if_neg (by decide), if_neg (by decide), if_neg (by decide),
        if_pos rfl]
      simp [Payload.set, importedPayload]
    · rw [getSecretData_tag env fl pre _ ids gpgKeyName w hpre (by decide)]
      rw [if_neg (by decide), if_neg (by decide), if_neg (by decide), if_neg (by decide),
        if_neg (by decide), if_pos rfl]
      simp [Payload.set, importedPayload]
  have htag : '/' ∉ tag ∧ tag ≠ "secret-ssh-key".toList ∧
      tag ≠ "secret-ssh-public-key".toList := by
    simp only [warnedOnlyTable, List.mem_cons, List.mem_singleton, List.not_mem_nil, or_false,
      Prod.mk.injEq] at hkind
    rcases hkind with ⟨rfl, _⟩ | ⟨rfl, _⟩ | ⟨rfl, _⟩ | ⟨rfl, _⟩ <;> decide
  refine ⟨?_, ?_, hdata flags, importedPayload_keys ids keys w, ?_⟩
  · rw [createAndPrintSecrets_tag env flags pre tag ids w hpre htag.1,
      if_neg htag.2.1, if_neg htag.2.2]
  · simp only [secret, hdata flags]
  · rw [hdata flags, hdata flags2]

theorem warned_only_payload_witness :
    getSecretData friendlyEnv defaultFlags ("fabric8.io".toList ++ '/' :: "secret-gpg-key".toList)
        "g".toList gpgKeyName (worldOf [("g/gpg.conf".toList, [5])])
      = (.ok [("gpg.conf".toList, [5]), ("secring.gpg".toList, []),
              ("pubring.gpg".toList, []), ("trustdb.gpg".toList, [])],
         worldOf [("g/gpg.conf".toList, [5])]) :=
  (warned_only_payload friendlyEnv defaultFlags ⟨false, true, false⟩ "fabric8.io".toList
    "secret-gpg-key".toList "g".toList
    ["gpg.conf".toList, "secring.gpg".toList, "pubring.gpg".toList, "trustdb.gpg".toList]
    (worldOf [("g/gpg.conf".toList, [5])]) (by decide) (by decide)).2.2.1

/-! ### Attempts and their result lines -/

theorem printedOf_append (xs ys : List Event) :
    printedOf (xs ++ ys) = printedOf xs ++ printedOf ys := by
  induction xs with
  | nil => rfl
  | cons e rest ih => cases e <;> simp [printedOf, ih]

theorem createdOf_append (xs ys : List Event) :
    createdOf (xs ++ ys) = createdOf xs ++ createdOf ys := by
  induction xs with
  | nil => rfl
  | cons e rest ih => cases e <;> simp [createdOf, ih]

/-- A successful write adds no result line and no `Create`. -/
theorem writeFile_ok (env : Env) (path : Str) (contents : Bytes) (w : World)
    (h : env.canWrite path = true) :
    ∃ w1, writeFile env path contents w = (.ok (), w1) ∧
      printedOf w1.out = printedOf w.out ∧ createdOf w1.out = createdOf w.out := by
  unfold writeFile
  rw [if_pos h]
  exact ⟨_, rfl, by simp [printedOf_append, printedOf], by simp [createdOf_append, createdOf]⟩

/-- Key generation that succeeds adds no event. -/
theorem generateSshKeyPair_ok (env : Env) (w : World) (h : ∀ n, (env.genKey n).isSome = true) :
    ∃ kp w1, generateSshKeyPair env w = (.ok kp, w1) ∧ w1.out = w.out := by
  unfold generateSshKeyPair
  cases hk : env.genKey w.keys with
  | none =>
    have := h w.keys
    rw [hk] at this
    cases this
  | some kp => exact ⟨kp, _, rfl, rfl⟩

/-- When local resolution cannot end the process, the case `secret-ssh-key` returns a
payload and adds no result line and no `Create`. -/
theorem sshKeyData_ok (env : Env) (flags : Flags) (name : Str) (w : World)
    (hok : LocalOk env flags) :
    ∃ data w1, sshKeyData env flags name w = (.ok data, w1) ∧
      printedOf w1.out = printedOf w.out ∧ createdOf w1.out = createdOf w.out := by
  unfold sshKeyData
  simp only
  split
  · rename_i hcond
    have hgen : flags.generateSecretsData = true := by
      simp only [Bool.and_eq_true] at hcond
      exact hcond.2
    rcases hok with h | ⟨hkey, hwrite⟩
    · rw [h] at hgen
      cases hgen
    · obtain ⟨kp, w1, hkp, hout⟩ := generateSshKeyPair_ok env w hkey
      rw [hkp]
      simp only
      cases hwf : flags.writeGeneratedKeys with
      | false =>
        simp only [Bool.false_eq_true, if_false]
        exact ⟨_, w1, rfl, by rw [hout], by rw [hout]⟩
      | true =>
        have hall : ∀ p, env.canWrite p = true := by
          rcases hwrite with h | h
          · rw [h] at hwf
            cases hwf
          · exact h
        obtain ⟨w2, hw2, hp2, hc2⟩ :=
          writeFile_ok env (name ++ "/ssh-key".toList) kp.priv w1 (hall _)
        obtain ⟨w3, hw3, hp3, hc3⟩ :=
          writeFile_ok env (name ++ "/ssh-key.pub".toList) kp.pub w2 (hall _)
        simp only [if_true, hw2, hw3]
        exact ⟨_, w3, rfl, by rw [hp3, hp2, hout], by rw [hc3, hc2, hout]⟩
  · split
    · exact ⟨[], w, rfl, rfl, rfl⟩
    · exact ⟨_, w, rfl, rfl, rfl⟩

/-- An attempt whose payload is built prints exactly one result line, labelled with the
name, counts exactly when the returned error is nil, and hands at most one secret, named
after the identifier and holding that payload, to the cluster. -/
theorem attempt_of_getSecretData_ok (env : Env) (flags : Flags) (name secretType : Str)
    (keysNames : List Str) (count : Nat) (w w1 : World) (data : Payload)
    (h : getSecretData env flags secretType name keysNames w = (.ok data, w1))
    (hp : printedOf w1.out = printedOf w.out) (hc : createdOf w1.out = createdOf w.out) :
    ∃ err w2,
      attempt env flags name secretType keysNames count w
        = (.ok (if err.isNone then count + 1 else count), w2) ∧
      printedOf w2.out = printedOf w.out ++ [(name ++ " secret".toList, err)] ∧
      createdOf w2.out = createdOf w.out ++
        (if env.defaultNamespace.2.isNone then [⟨name, secretType, data⟩] else []) := by
  unfold attempt createSecret secret printResult
  rw [h]
  simp only
  rcases hdn : env.defaultNamespace with ⟨ns, _ | e⟩
  · simp only
    cases hrs : (env.create w1.creates ns ⟨name, secretType, data⟩).1
    all_goals simp only [Bool.false_eq_true, if_false, if_true]
    all_goals refine ⟨_, _, rfl, ?_, ?_⟩
    all_goals simp [printedOf_append, createdOf_append, printedOf, createdOf, hp, hc]
  · simp only
    refine ⟨_, _, rfl, ?_, ?_⟩
    all_goals simp [printedOf_append, createdOf_append, printedOf, createdOf, hp, hc]

/-- The loop over the items of an ssh-key annotation, when local resolution cannot end the
process: one result line per item, in order, whatever the cluster answers. -/
theorem sshKeyLoop_ok (env : Env) (flags : Flags) (pre : Str) (hpre : '/' ∉ pre)
    (hok : LocalOk env flags) :
    ∀ (items : List Str) (count : Nat) (w : World),
      ∃ (errs : List (Option Str)) (c : Nat) (w1 : World),
        sshKeyLoop env flags (pre ++ '/' :: "secret-ssh-key".toList) items count w
          = (.ok c, w1) ∧
        errs.length = items.length ∧
        printedOf w1.out = printedOf w.out ++
          List.zip (items.map (fun name => name ++ " secret".toList)) errs ∧
        c = count + errs.countP Option.isNone ∧
        (createdOf w1.out).map Secret.Name = (createdOf w.out).map Secret.Name ++
          (if env.defaultNamespace.2.isNone then items else []) := by
  intro items
  induction items with
  | nil =>
    intro count w
    exact ⟨[], count, w, rfl, rfl, by simp, by simp, by simp⟩
  | cons name rest ih =>
    intro count w
    obtain ⟨data, w1, hdata, hp1, hc1⟩ := sshKeyData_ok env flags name w hok
    have hget : getSecretData env flags (pre ++ '/' :: "secret-ssh-key".toList) name [] w
        = (.ok data, w1) := by
      rw [getSecretData_tag env flags pre _ name [] w hpre (by decide), if_pos rfl]
      exact hdata
    obtain ⟨err, w2, hatt, hp2, hc2⟩ :=
      attempt_of_getSecretData_ok env flags name _ [] count w w1 data hget hp1 hc1
    obtain ⟨errs, c, w3, hloop, hlen, hp3, hcount, hc3⟩ :=
      ih (if err.isNone then count + 1 else count) w2
    refine ⟨err :: errs, c, w3, ?_, ?_, ?_, ?_, ?_⟩
    · simp only [sshKeyLoop, hatt]
      exact hloop
    · simp [hlen]
    · rw [hp3, hp2]
      simp
    · rw [hcount]
      cases err with
      | none =>
        simp [List.countP_cons]
        omega
      | some e => simp [List.countP_cons]
    · rw [hc3, hc2]
      cases env.defaultNamespace.2 <;> simp

/-- C4 as stated fails: with a read-only working directory and write-back of generated
keys switched on, the two items of "a,b" lead to no completed attempt: the write-back for
the first item panics, no result line is printed and no count is returned. -/
theorem partial_success_counterexample :
    (split ',' "a,b".toList).length = 2 ∧
    (createAndPrintSecrets readOnlyEnv ⟨true, true, true⟩ "a,b".toList
      "fabric8.io/secret-ssh-key".toList (worldOf [])).1 = .error Abort.runtimePanic ∧
    printedOf (createAndPrintSecrets readOnlyEnv ⟨true, true, true⟩ "a,b".toList
      "fabric8.io/secret-ssh-key".toList (worldOf [])).2.out = [] :=
  ⟨rfl, rfl, rfl⟩

/-- C4, amended: for kind `secret-ssh-key`, when local resolution cannot end the process
(generation is off, or key generation succeeds and write-back is off or succeeds), every
identifier string is processed item by item: the run returns a count, exactly one result
line is printed per item of the split on ",", in list order and labelled with the item,
whatever the errors returned by the attempts; the count is the number of attempts whose
returned error is nil; the secrets handed to the cluster are named after the items. -/
theorem partial_success_counting (env : Env) (flags : Flags) (pre ids : Str) (w : World)
    (hpre : '/' ∉ pre) (hok : LocalOk env flags) :
    ∃ (errs : List (Option Str)) (c : Nat) (w1 : World),
      createAndPrintSecrets env flags ids (pre ++ '/' :: "secret-ssh-key".toList) w
        = (.ok c, w1) ∧
      errs.length = (split ',' ids).length ∧
      printedOf w1.out = printedOf w.out ++
        List.zip ((split ',' ids).map (fun name => name ++ " secret".toList)) errs ∧
      c = errs.countP Option.isNone ∧
      (createdOf w1.out).map Secret.Name = (createdOf w.out).map Secret.Name ++
        (if env.defaultNamespace.2.isNone then split ',' ids else []) := by
  obtain ⟨errs, c, w1, hloop, hlen, hp, hcount, hc⟩ :=
    sshKeyLoop_ok env flags pre hpre hok (split ',' ids) 0 w
  refine ⟨errs, c, w1, ?_, hlen, hp, by simpa using hcount, hc⟩
  rw [createAndPrintSecrets_tag env flags pre _ ids w hpre (by decide), if_pos rfl]
  exact hloop

theorem partial_success_counting_witness :
    ∃ (errs : List (Option Str)) (c : Nat) (w1 : World),
      createAndPrintSecrets flakyEnv defaultFlags "a,b".toList
          ("fabric8.io".toList ++ '/' :: "secret-ssh-key".toList) (worldOf [])
        = (.ok c, w1) ∧
      errs.length = (split ',' "a,b".toList).length ∧
      printedOf w1.out = printedOf (worldOf []).out ++
        List.zip ((split ',' "a,b".toList).map (fun name => name ++ " secret".toList)) errs ∧
      c = errs.countP Option.isNone ∧
      (createdOf w1.out).map Secret.Name = (createdOf (worldOf []).out).map Secret.Name ++
        (if flakyEnv.defaultNamespace.2.isNone then split ',' "a,b".toList else []) :=
  partial_success_counting flakyEnv defaultFlags "fabric8.io".toList "a,b".toList
    (worldOf []) (by decide) (Or.inr ⟨fun _ => rfl, Or.inl rfl⟩)

/-- A rejected first `Create` does not stop the loop: for "a,b" both items get a result
line, in order, and the count is one. -/
theorem partial_failure_example :
    (createAndPrintSecrets flakyEnv defaultFlags "a,b".toList
      "fabric8.io/secret-ssh-key".toList (worldOf [])).1 = .ok 1 ∧
    printedOf (createAndPrintSecrets flakyEnv defaultFlags "a,b".toList
      "fabric8.io/secret-ssh-key".toList (worldOf [])).2.out
      = [("a secret".toList, some "rejected".toList), ("b secret".toList, none)] :=
  ⟨rfl, rfl⟩

/-! ### Identifier decoding for public keys -/

theorem isSeparator_of_noSeparator {s : Str} (h : NoSeparator s) :
    ∀ c ∈ s, isSeparator c = false := by
  intro c hc
  obtain ⟨h1, h2, h3⟩ := h
  have e1 : c ≠ ',' := fun e => h1 (e ▸ hc)
  have e2 : c ≠ '[' := fun e => h2 (e ▸ hc)
  have e3 : c ≠ ']' := fun e => h3 (e ▸ hc)
  simp [isSeparator, e1, e2, e3]

/-- Reading a run of non-separators extends the current field. -/
theorem fieldsFuncAux_word (f : Char → Bool) (word : Str) (hword : ∀ c ∈ word, f c = false) :
    ∀ (rest cur : Str), fieldsFuncAux f (word ++ rest) cur = fieldsFuncAux f rest (cur ++ word) := by
  induction word with
  | nil => intro rest cur; simp
  | cons c cs ih =>
    intro rest cur
    have hc : f c = false := hword c (by simp)
    have hcs : ∀ d ∈ cs, f d = false := fun d hd => hword d (by simp [hd])
    have hstep : fieldsFuncAux f (c :: (cs ++ rest)) cur
        = fieldsFuncAux f (cs ++ rest) (cur ++ [c]) := by
      simp [fieldsFuncAux, hc]
    rw [List.cons_append, hstep, ih hcs rest (cur ++ [c])]
    simp

/-- A non-empty field followed by a separator is emitted. -/
theorem fieldsFuncAux_field (f : Char → Bool) (word : Str) (sep : Char) (rest : Str)
    (hword : ∀ c ∈ word, f c = false) (hne : word ≠ []) (hsep : f sep = true) :
    fieldsFuncAux f (word ++ sep :: rest) [] = word :: fieldsFuncAux f rest [] := by
  rw [fieldsFuncAux_word f word hword]
  simp [fieldsFuncAux, hsep, hne]

theorem fieldsFunc_keys (keys : List Str) (hkeys : ∀ k ∈ keys, k ≠ [] ∧ NoSeparator k)
    (hne : keys ≠ []) :
    fieldsFuncAux isSeparator (joinComma keys ++ [']']) [] = keys := by
  induction keys with
  | nil => exact absurd rfl hne
  | cons k rest ih =>
    obtain ⟨hk, hsep⟩ := hkeys k (by simp)
    cases rest with
    | nil =>
      simp only [joinComma]
      rw [fieldsFuncAux_field isSeparator k ']' [] (isSeparator_of_noSeparator hsep) hk
        (by decide)]
      simp [fieldsFuncAux]
    | cons k2 rest2 =>
      simp only [joinComma, List.append_assoc, List.cons_append]
      rw [fieldsFuncAux_field isSeparator k ',' _ (isSeparator_of_noSeparator hsep) hk
        (by decide)]
      have := ih (fun q hq => hkeys q (by simp [hq])) (by simp)
      simp only [joinComma, List.append_assoc, List.cons_append] at this
      rw [this]

/-- The identifier string `name[k1,...,kn]` decodes to the name followed by the keys. -/
theorem fieldsFunc_publicKeyIdentifiers (name : Str) (keys : List Str)
    (hname : name ≠ [] ∧ NoSeparator name) (hkeys : ∀ k ∈ keys, k ≠ [] ∧ NoSeparator k)
    (hne : keys ≠ []) :
    fieldsFunc isSeparator (publicKeyIdentifiers name keys) = name :: keys := by
  unfold fieldsFunc publicKeyIdentifiers
  rw [fieldsFuncAux_field isSeparator name '[' _ (isSeparator_of_noSeparator hname.2) hname.1
    (by decide), fieldsFunc_keys keys hkeys hne]

theorem Payload.mem_keys_set (d : Payload) (k k2 : Str) (v : Bytes) :
    k2 ∈ (d.set k v).keys ↔ k2 = k ∨ k2 ∈ d.keys := by
  induction d with
  | nil => simp [Payload.set, Payload.keys]
  | cons e rest ih =>
    obtain ⟨k1, v1⟩ := e
    unfold Payload.keys at ih
    by_cases h : k1 = k
    · subst h
      simp [Payload.set, Payload.keys]
    · simp only [Payload.set, if_neg h, Payload.keys, List.map_cons, List.mem_cons, ih]
      tauto

/-- The payload returned by the public-key loop holds the keys it started with and the key
names it went through. -/
theorem sshPublicKeyData_keys (env : Env) (flags : Flags) (name : Str) (keysNames : List Str) :
    ∀ (data : Payload) (w : World) (data1 : Payload) (w1 : World),
      sshPublicKeyData env flags name keysNames data w = (.ok data1, w1) →
      ∀ k, k ∈ data1.keys ↔ k ∈ data.keys ∨ k ∈ keysNames := by
  induction keysNames with
  | nil =>
    intro data w data1 w1 h k
    simp only [sshPublicKeyData, Prod.mk.injEq, Except.ok.injEq] at h
    simp [← h.1]
  | cons key rest ih =>
    intro data w data1 w1 h k
    unfold sshPublicKeyData at h
    simp only at h
    split at h
    · split at h
      · cases h
      · split at h
        · split at h
          · cases h
          · rw [ih _ _ _ _ h k, Payload.mem_keys_set]
            simp only [List.mem_cons]
            tauto
        · rw [ih _ _ _ _ h k, Payload.mem_keys_set]
          simp only [List.mem_cons]
          tauto
    · rw [ih _ _ _ _ h k, Payload.mem_keys_set]
      simp only [List.mem_cons]
      tauto

/-- When local resolution cannot end the process, the public-key loop returns a payload and
adds no result line and no `Create`. -/
theorem sshPublicKeyData_ok (env : Env) (flags : Flags) (name : Str) (hok : LocalOk env flags)
    (keysNames : List Str) :
    ∀ (data : Payload) (w : World),
      ∃ data1 w1, sshPublicKeyData env flags name keysNames data w = (.ok data1, w1) ∧
        printedOf w1.out = printedOf w.out ∧ createdOf w1.out = createdOf w.out := by
  induction keysNames with
  | nil => intro data w; exact ⟨data, w, rfl, rfl, rfl⟩
  | cons key rest ih =>
    intro data w
    unfold sshPublicKeyData
    simp only
    split
    · rename_i hcond
      have hgen : flags.generateSecretsData = true := by
        simp only [Bool.and_eq_true] at hcond
        exact hcond.2
      rcases hok with h | ⟨hkey, hwrite⟩
      · rw [h] at hgen
        cases hgen
      · obtain ⟨kp, w1, hkp, hout⟩ := generateSshKeyPair_ok env w hkey
        rw [hkp]
        simp only
        cases hwf : flags.writeGeneratedKeys with
        | false =>
          simp only [Bool.false_eq_true, if_false]
          obtain ⟨d2, w2, h2, hp2, hc2⟩ := ih (data.set key kp.pub) w1
          exact ⟨d2, w2, h2, by rw [hp2, hout], by rw [hc2, hout]⟩
        | true =>
          have hall : ∀ p, env.canWrite p = true := by
            rcases hwrite with h | h
            · rw [h] at hwf
              cases hwf
            · exact h
          obtain ⟨w2, hw2, hp2, hc2⟩ :=
            writeFile_ok env (name ++ "/ssh-key.pub".toList) kp.pub w1 (hall _)
          simp only [if_true, hw2]
          obtain ⟨d3, w3, h3, hp3, hc3⟩ := ih (data.set key kp.pub) w2
          exact ⟨d3, w3, h3, by rw [hp3, hp2, hout], by rw [hc3, hc2, hout]⟩
    · exact ih _ w

/-- C6: for kind `secret-ssh-public-key` and every identifier string `name[k1,...,kn]` with
`n ≥ 1`, where the name and the keys are non-empty and free of ",", "[" and "]",
`createAndPrintSecrets` is one attempt for the secret `name` with the key-name list
`[k1,...,kn]`; every payload `getSecretData` builds for it has exactly the key set
`{k1,...,kn}`; and when local resolution cannot end the process the payload is built, one
result line labelled with the name is printed and the secret handed to the cluster is
named `name` and holds that payload. -/
theorem public_key_identifier_decoding (env : Env) (flags : Flags) (pre name : Str)
    (keys : List Str) (w : World) (hpre : '/' ∉ pre)
    (hname : name ≠ [] ∧ NoSeparator name) (hkeys : ∀ k ∈ keys, k ≠ [] ∧ NoSeparator k)
    (hne : keys ≠ []) :
    createAndPrintSecrets env flags (publicKeyIdentifiers name keys)
        (pre ++ '/' :: "secret-ssh-public-key".toList) w
      = attempt env flags name (pre ++ '/' :: "secret-ssh-public-key".toList) keys 0 w ∧
    (∀ data w1,
      getSecretData env flags (pre ++ '/' :: "secret-ssh-public-key".toList) name keys w
        = (.ok data, w1) →
      ∀ k, k ∈ data.keys ↔ k ∈ keys) ∧
    (LocalOk env flags →
      ∃ data w1 err w2,
        getSecretData env flags (pre ++ '/' :: "secret-ssh-public-key".toList) name keys w
          = (.ok data, w1) ∧
        createAndPrintSecrets env flags (publicKeyIdentifiers name keys)
            (pre ++ '/' :: "secret-ssh-public-key".toList) w
          = (.ok (if err.isNone then 1 else 0), w2) ∧
        printedOf w2.out = printedOf w.out ++ [(name ++ " secret".toList, err)] ∧
        createdOf w2.out = createdOf w.out ++
          (if env.defaultNamespace.2.isNone then
            [⟨name, pre ++ '/' :: "secret-ssh-public-key".toList, data⟩] else [])) := by
  have hget : getSecretData env flags (pre ++ '/' :: "secret-ssh-public-key".toList) name
      keys w = sshPublicKeyData env flags name keys [] w := by
    rw [getSecretData_tag env flags pre _ name keys w hpre (by decide),
      if_neg (by decide), if_pos rfl]
  have hrun : createAndPrintSecrets env flags (publicKeyIdentifiers name keys)
      (pre ++ '/' :: "secret-ssh-public-key".toList) w
      = attempt env flags name (pre ++ '/' :: "secret-ssh-public-key".toList) keys 0 w := by
    rw [createAndPrintSecrets_tag env flags pre _ _ w hpre (by decide),
      if_neg (by decide), if_pos rfl, fieldsFunc_publicKeyIdentifiers name keys hname hkeys hne]
  refine ⟨hrun, ?_, ?_⟩
  · intro data w1 h k
    rw [hget] at h
    have := sshPublicKeyData_keys env flags name keys [] w data w1 h k
    simpa [Payload.keys] using this
  · intro hok
    obtain ⟨data, w1, hdata, hp1, hc1⟩ := sshPublicKeyData_ok env flags name hok keys [] w
    obtain ⟨err, w2, hatt, hp2, hc2⟩ :=
      attempt_of_getSecretData_ok env flags name _ keys 0 w w1 data (hget.trans hdata) hp1 hc1
    exact ⟨data, w1, err, w2, hget.trans hdata, by rw [hrun, hatt], hp2, hc2⟩

theorem public_key_identifier_decoding_witness :
    createAndPrintSecrets friendlyEnv defaultFlags
        (publicKeyIdentifiers "n".toList ["k1".toList, "k2".toList])
        ("fabric8.io".toList ++ '/' :: "secret-ssh-public-key".toList) (worldOf [])
      = attempt friendlyEnv defaultFlags "n".toList
          ("fabric8.io".toList ++ '/' :: "secret-ssh-public-key".toList)
          ["k1".toList, "k2".toList] 0 (worldOf []) ∧
    ∃ data w1 err w2,
      getSecretData friendlyEnv defaultFlags
          ("fabric8.io".toList ++ '/' :: "secret-ssh-public-key".toList) "n".toList
          ["k1".toList, "k2".toList] (worldOf []) = (.ok data, w1) ∧
      createAndPrintSecrets friendlyEnv defaultFlags
          (publicKeyIdentifiers "n".toList ["k1".toList, "k2".toList])
          ("fabric8.io".toList ++ '/' :: "secret-ssh-public-key".toList) (worldOf [])
        = (.ok (if err.isNone then 1 else 0), w2) ∧
      printedOf w2.out = printedOf (worldOf []).out ++ [("n".toList ++ " secret".toList, err)] ∧
      createdOf w2.out = createdOf (worldOf []).out ++
        (if friendlyEnv.defaultNamespace.2.isNone then
          [⟨"n".toList, "fabric8.io".toList ++ '/' :: "secret-ssh-public-key".toList, data⟩]
        else []) :=
  ⟨(public_key_identifier_decoding friendlyEnv defaultFlags "fabric8.io".toList "n".toList
      ["k1".toList, "k2".toList] (worldOf []) (by decide) (by decide) (by decide)
      (by decide)).1,
   (public_key_identifier_decoding friendlyEnv defaultFlags "fabric8.io".toList "n".toList
      ["k1".toList, "k2".toList] (worldOf []) (by decide) (by decide) (by decide)
      (by decide)).2.2 (Or.inr ⟨fun _ => rfl, Or.inl rfl⟩)⟩


/-! ### A public-key identifier with a single token -/

/-- A non-empty string without separators is its own single field. -/
theorem fieldsFunc_single (name : Str) (hname : name ≠ [] ∧ NoSeparator name) :
    fieldsFunc isSeparator name = [name] := by
  unfold fieldsFunc
  have h := fieldsFuncAux_word isSeparator name (isSeparator_of_noSeparator hname.2) [] []
  rw [List.append_nil] at h
  rw [h]
  simp [fieldsFuncAux, hname.1]

/-- For kind `secret-ssh-public-key` an identifier string that is just a name takes the
branch `numOfSecrets > 0`, whose loop from 1 adds nothing: the attempt is made with the
empty key-name list and the payload built for it is empty. -/
theorem single_token_key_list (env : Env) (flags : Flags) (pre name : Str) (w : World)
    (hpre : '/' ∉ pre) (hname : name ≠ [] ∧ NoSeparator name) :
    createAndPrintSecrets env flags name (pre ++ '/' :: "secret-ssh-public-key".toList) w
      = attempt env flags name (pre ++ '/' :: "secret-ssh-public-key".toList) [] 0 w ∧
    getSecretData env flags (pre ++ '/' :: "secret-ssh-public-key".toList) name [] w
      = (.ok [], w) := by
  constructor
  · rw [createAndPrintSecrets_tag env flags pre _ name w hpre (by decide),
      if_neg (by decide), if_pos rfl, fieldsFunc_single name hname]
  · rw [getSecretData_tag env flags pre _ name [] w hpre (by decide),
      if_neg (by decide), if_pos rfl]
    rfl

/-- C11 fails on the code: for kind `secret-ssh-public-key` and the identifier string
"mykey", which names only the secret, the one secret handed to the cluster is named
`mykey` and its payload is empty: the key "ssh-key.pub" is not in it. -/
theorem single_public_key_payload_is_empty :
    fieldsFunc isSeparator "mykey".toList = ["mykey".toList] ∧
    (createAndPrintSecrets friendlyEnv defaultFlags "mykey".toList
      "fabric8.io/secret-ssh-public-key".toList (worldOf [])).1 = .ok 1 ∧
    createdOf (createAndPrintSecrets friendlyEnv defaultFlags "mykey".toList
      "fabric8.io/secret-ssh-public-key".toList (worldOf [])).2.out
      = [⟨"mykey".toList, "fabric8.io/secret-ssh-public-key".toList, []⟩] ∧
    "ssh-key.pub".toList ∉ Payload.keys [] :=
  ⟨rfl, rfl, rfl, by decide⟩

/-! ### Indexing -/

/-- A string made of separators only has no field. -/
theorem fieldsFunc_no_token (f : Char → Bool) (s : Str) (h : ∀ c ∈ s, f c = true) :
    fieldsFunc f s = [] := by
  unfold fieldsFunc
  induction s with
  | nil => rfl
  | cons c cs ih =>
    have hc : f c = true := h c (by simp)
    have hcs : ∀ d ∈ cs, f d = true := fun d hd => h d (by simp [hd])
    simp [fieldsFuncAux, hc, ih hcs]

/-- A secret type without "/" makes `dataType[1]` panic in `createAndPrintSecrets` and in
`getSecretData`. -/
theorem no_slash_panics (env : Env) (flags : Flags) (secretType ids : Str)
    (keysNames : List Str) (w : World) (h : '/' ∉ secretType) :
    createAndPrintSecrets env flags ids secretType w = (.error Abort.runtimePanic, w) ∧
    getSecretData env flags secretType ids keysNames w = (.error Abort.runtimePanic, w) := by
  unfold createAndPrintSecrets getSecretData
  rw [split_of_not_mem '/' secretType h]
  exact ⟨rfl, rfl⟩

/-- For kind `secret-ssh-public-key` an identifier string without token makes the
assignment `keysNames[0] = "ssh-key.pub"` panic. -/
theorem no_token_panics (env : Env) (flags : Flags) (pre ids : Str) (w : World)
    (hpre : '/' ∉ pre) (h : ∀ c ∈ ids, isSeparator c = true) :
    createAndPrintSecrets env flags ids (pre ++ '/' :: "secret-ssh-public-key".toList) w
      = (.error Abort.runtimePanic, w) := by
  rw [createAndPrintSecrets_tag env flags pre _ ids w hpre (by decide),
    if_neg (by decide), if_pos rfl, fieldsFunc_no_token isSeparator ids h]

/-- C13 fails on the code: the annotation key "description" has no "/", so `dataType[1]` is
out of range in `createAndPrintSecrets` (and in `getSecretData`); for kind
`secret-ssh-public-key` the identifier strings "" and ",[]" have no token, so
`keysNames[0]` is out of range. Each run ends in a panic before anything else happens. -/
theorem index_out_of_range :
    split '/' "description".toList = ["description".toList] ∧
    createAndPrintSecrets friendlyEnv defaultFlags "x".toList "description".toList (worldOf [])
      = (.error Abort.runtimePanic, worldOf []) ∧
    getSecretData friendlyEnv defaultFlags "description".toList "x".toList gpgKeyName
      (worldOf []) = (.error Abort.runtimePanic, worldOf []) ∧
    fieldsFunc isSeparator "".toList = [] ∧
    createAndPrintSecrets friendlyEnv defaultFlags "".toList
      "fabric8.io/secret-ssh-public-key".toList (worldOf [])
      = (.error Abort.runtimePanic, worldOf []) ∧
    createAndPrintSecrets friendlyEnv defaultFlags ",[]".toList
      "fabric8.io/secret-ssh-public-key".toList (worldOf [])
      = (.error Abort.runtimePanic, worldOf []) :=
  ⟨rfl, rfl, rfl, rfl, rfl, rfl⟩


/-! ### The result line and the count -/

/-- What `createSecret` returns once the secret is built: the failure of the namespace
lookup, or the result decided by the object returned by `Create` with the error of
`Create` passed through. -/
theorem createSecret_returns (env : Env) (flags : Flags) (name secretType : Str)
    (keysNames : List Str) (w w2 : World) (r : Result) (err : Option Str)
    (h : createSecret env flags name secretType keysNames w = (.ok (r, err), w2)) :
    (∃ e, env.defaultNamespace.2 = some e ∧ r = Result.Failure ∧ err = some e) ∨
    (env.defaultNamespace.2 = none ∧
      ∃ n s, err = (env.create n env.defaultNamespace.1 s).2 ∧
        (r = Result.Success ↔ (env.create n env.defaultNamespace.1 s).1 = true)) := by
  unfold createSecret at h
  split at h
  · cases h
  · rename_i s w1 _
    split at h
    · rename_i ns e hdn
      simp only [Prod.mk.injEq, Except.ok.injEq] at h
      exact Or.inl ⟨e, by rw [hdn], h.1.1.symm, h.1.2.symm⟩
    · rename_i ns hdn
      refine Or.inr ⟨by rw [hdn], w1.creates, s, ?_⟩
      rw [hdn]
      simp only at h
      split at h
      · rename_i hrs
        simp only [Prod.mk.injEq, Except.ok.injEq] at h
        exact ⟨h.1.2.symm, by rw [← h.1.1]; simp [hrs]⟩
      · rename_i hrs
        simp only [Prod.mk.injEq, Except.ok.injEq] at h
        exact ⟨h.1.2.symm, by rw [← h.1.1]; simp [hrs]⟩

/-- C12 as stated fails: when `Create` returns an object together with an error,
`createSecret` returns `Success` with a non-nil error, so the result line is given
`Success` and the secret is not counted; when `Create` returns neither, `createSecret`
returns `Failure` with a nil error, so the result line is given `Failure` and the secret
is counted. -/
theorem pass_fail_counterexample :
    (createSecret conflictEnv defaultFlags "h".toList "fabric8.io/secret-hub-api-token".toList
      gpgKeyName (worldOf [])).1 = .ok (Result.Success, some "already exists".toList) ∧
    (createAndPrintSecrets conflictEnv defaultFlags "h".toList
      "fabric8.io/secret-hub-api-token".toList (worldOf [])).1 = .ok 0 ∧
    (createAndPrintSecrets conflictEnv defaultFlags "h".toList
      "fabric8.io/secret-hub-api-token".toList (worldOf [])).2.out.getLast?
      = some (Event.printed "h secret".toList Result.Success
          (some "already exists".toList)) ∧
    (createSecret silentEnv defaultFlags "h".toList "fabric8.io/secret-hub-api-token".toList
      gpgKeyName (worldOf [])).1 = .ok (Result.Failure, none) ∧
    (createAndPrintSecrets silentEnv defaultFlags "h".toList
      "fabric8.io/secret-hub-api-token".toList (worldOf [])).1 = .ok 1 ∧
    (createAndPrintSecrets silentEnv defaultFlags "h".toList
      "fabric8.io/secret-hub-api-token".toList (worldOf [])).2.out.getLast?
      = some (Event.printed "h secret".toList Result.Failure none) :=
  ⟨rfl, rfl, rfl, rfl, rfl, rfl⟩

/-- C12, amended: when the cluster `Create` returns a non-nil object exactly when it
returns a nil error, then for every outcome of `Create` and of the default-namespace
lookup `createSecret` returns `Success` exactly when it returns a nil error, and an attempt
counts the secret exactly when the result line it prints is given `Success`. -/
theorem pass_fail_agrees_with_count (env : Env) (flags : Flags) (name secretType : Str)
    (keysNames : List Str) (count : Nat) (w : World) (hcons : ConsistentCreate env) :
    (∀ r err w2, createSecret env flags name secretType keysNames w = (.ok (r, err), w2) →
      (r = Result.Success ↔ err = none)) ∧
    (∀ c w2, attempt env flags name secretType keysNames count w = (.ok c, w2) →
      ∃ r err, w2.out.getLast? = some (Event.printed (name ++ " secret".toList) r err) ∧
        (r = Result.Success ↔ err = none) ∧
        c = (if r = Result.Success then count + 1 else count)) ∧
    (∀ data w1, getSecretData env flags secretType name keysNames w = (.ok data, w1) →
      ∃ r err w2, createSecret env flags name secretType keysNames w = (.ok (r, err), w2)) := by
  have hpair : ∀ r err w2,
      createSecret env flags name secretType keysNames w = (.ok (r, err), w2) →
      (r = Result.Success ↔ err = none) := by
    intro r err w2 h
    rcases createSecret_returns env flags name secretType keysNames w w2 r err h with
      ⟨e, _, hr, he⟩ | ⟨_, n, s, he, hr⟩
    · simp [hr, he]
    · rw [hr, he]
      exact hcons n env.defaultNamespace.1 s
  refine ⟨hpair, ?_, ?_⟩
  · intro c w2 h
    unfold attempt printResult at h
    split at h
    · cases h
    · rename_i r err w1 hcs
      simp only [Prod.mk.injEq, Except.ok.injEq] at h
      have hrs := hpair r err w1 hcs
      refine ⟨r, err, ?_, hrs, ?_⟩
      · rw [← h.2]
        simp
      · rw [← h.1]
        cases err with
        | none => simp [hrs.2 rfl]
        | some e =>
          have hne : r ≠ Result.Success := fun hr => by
            have := hrs.1 hr
            cases this
          simp [hne]
  · intro data w1 h
    unfold createSecret secret
    rw [h]
    simp only
    rcases env.defaultNamespace with ⟨ns, _ | e⟩
    · simp only
      split <;> exact ⟨_, _, _, rfl⟩
    · exact ⟨_, _, _, rfl⟩

theorem pass_fail_agrees_with_count_witness :
    (∀ r err w2, createSecret flakyEnv defaultFlags "h".toList
        "fabric8.io/secret-hub-api-token".toList gpgKeyName (worldOf []) = (.ok (r, err), w2) →
      (r = Result.Success ↔ err = none)) ∧
    (∀ c w2, attempt flakyEnv defaultFlags "h".toList
        "fabric8.io/secret-hub-api-token".toList gpgKeyName 0 (worldOf []) = (.ok c, w2) →
      ∃ r err, w2.out.getLast? = some (Event.printed ("h".toList ++ " secret".toList) r err) ∧
        (r = Result.Success ↔ err = none) ∧
        c = (if r = Result.Success then 0 + 1 else 0)) ∧
    (∀ data w1, getSecretData flakyEnv defaultFlags "fabric8.io/secret-hub-api-token".toList
        "h".toList gpgKeyName (worldOf []) = (.ok data, w1) →
      ∃ r err w2, createSecret flakyEnv defaultFlags "h".toList
        "fabric8.io/secret-hub-api-token".toList gpgKeyName (worldOf []) = (.ok (r, err), w2)) :=
  pass_fail_agrees_with_count flakyEnv defaultFlags "h".toList
    "fabric8.io/secret-hub-api-token".toList gpgKeyName 0 (worldOf [])
    (by
      intro n ns s
      by_cases hn : n = 0 <;> simp [flakyEnv, hn])


/-! ### Write-back of generated keys -/

theorem sshKey_paths_ne (name : Str) :
    name ++ "/ssh-key".toList ≠ name ++ "/ssh-key.pub".toList := by
  intro h
  have := List.append_cancel_left h
  exact absurd this (by decide)

/-- For kind `secret-ssh-key` write-back makes generation repeatable: when a call with both
flags on finds both key files unreadable and returns, having generated and written the
pair, a second call in the world it left reads both files, generates and writes nothing,
and returns the same payload. -/
theorem sshKey_writeback_repeatable (env : Env) (flags : Flags) (name : Str) (w w1 : World)
    (data : Payload) (hgen : flags.generateSecretsData = true)
    (hwrite : flags.writeGeneratedKeys = true)
    (h1 : readFile (name ++ "/ssh-key".toList) w = none)
    (h2 : readFile (name ++ "/ssh-key.pub".toList) w = none)
    (hfirst : sshKeyData env flags name w = (.ok data, w1)) :
    sshKeyData env flags name w1 = (.ok data, w1) := by
  unfold sshKeyData at hfirst
  rw [h1, h2] at hfirst
  simp only [Option.isNone_none, Bool.and_self, hgen, if_true, hwrite] at hfirst
  unfold generateSshKeyPair at hfirst
  cases hk : env.genKey w.keys with
  | none =>
    rw [hk] at hfirst
    cases hfirst
  | some kp =>
    rw [hk] at hfirst
    simp only [writeFile] at hfirst
    cases hc1 : env.canWrite (name ++ "/ssh-key".toList) with
    | false =>
      rw [hc1] at hfirst
      cases hfirst
    | true =>
      rw [hc1] at hfirst
      cases hc2 : env.canWrite (name ++ "/ssh-key.pub".toList) with
      | false =>
        simp only [if_true, hc2] at hfirst
        cases hfirst
      | true =>
        simp only [if_true, hc2, Prod.mk.injEq, Except.ok.injEq] at hfirst
        obtain ⟨hdata, hw1⟩ := hfirst
        have hne := sshKey_paths_ne name
        have hr1 : readFile (name ++ "/ssh-key".toList) w1 = some kp.priv := by
          rw [← hw1]
          simp [readFile, hne]
        have hr2 : readFile (name ++ "/ssh-key.pub".toList) w1 = some kp.pub := by
          rw [← hw1]
          simp [readFile]
        unfold sshKeyData
        rw [hr1, hr2, ← hdata]
        simp [bytesOf]


/-- C14 fails on the code for kind `secret-ssh-public-key`: with both flags on, no local
file, identifier `n` and key name `id_rsa.pub`, the first call generates a key, returns it
under "id_rsa.pub" and writes it to `n/ssh-key.pub`; `n/id_rsa.pub` is still unreadable
afterwards, so the second call generates a second key and returns a different payload. -/
theorem public_key_writeback_not_repeatable :
    readFile "n/id_rsa.pub".toList (worldOf []) = none ∧
    (getSecretData friendlyEnv ⟨true, true, true⟩ "fabric8.io/secret-ssh-public-key".toList
      "n".toList ["id_rsa.pub".toList] (worldOf [])).1
      = .ok [("id_rsa.pub".toList, [0, 1])] ∧
    (getSecretData friendlyEnv ⟨true, true, true⟩ "fabric8.io/secret-ssh-public-key".toList
      "n".toList ["id_rsa.pub".toList] (worldOf [])).2.out
      = [Event.wrote "n/ssh-key.pub".toList [0, 1]] ∧
    readFile "n/id_rsa.pub".toList
      (getSecretData friendlyEnv ⟨true, true, true⟩ "fabric8.io/secret-ssh-public-key".toList
        "n".toList ["id_rsa.pub".toList] (worldOf [])).2 = none ∧
    (getSecretData friendlyEnv ⟨true, true, true⟩ "fabric8.io/secret-ssh-public-key".toList
      "n".toList ["id_rsa.pub".toList]
      (getSecretData friendlyEnv ⟨true, true, true⟩ "fabric8.io/secret-ssh-public-key".toList
        "n".toList ["id_rsa.pub".toList] (worldOf [])).2).1
      = .ok [("id_rsa.pub".toList, [1, 1])] ∧
    (getSecretData friendlyEnv ⟨true, true, true⟩ "fabric8.io/secret-ssh-public-key".toList
      "n".toList ["id_rsa.pub".toList]
      (getSecretData friendlyEnv ⟨true, true, true⟩ "fabric8.io/secret-ssh-public-key".toList
        "n".toList ["id_rsa.pub".toList] (worldOf [])).2).2.keys = 2 ∧
    ([("id_rsa.pub".toList, [1, 1])] : Payload) ≠ [("id_rsa.pub".toList, [0, 1])] :=
  ⟨rfl, rfl, rfl, rfl, rfl, rfl, by decide⟩

/-- The same two calls for kind `secret-ssh-key`: the second call reads back the pair the
first one wrote and returns the same payload without generating. -/
theorem sshKey_writeback_example :
    (getSecretData friendlyEnv ⟨true, true, true⟩ "fabric8.io/secret-ssh-key".toList
      "n".toList [] (worldOf [])).1
      = .ok [("ssh-key".toList, [0, 2]), ("ssh-key.pub".toList, [0, 1])] ∧
    (getSecretData friendlyEnv ⟨true, true, true⟩ "fabric8.io/secret-ssh-key".toList
      "n".toList []
      (getSecretData friendlyEnv ⟨true, true, true⟩ "fabric8.io/secret-ssh-key".toList
        "n".toList [] (worldOf [])).2).1
      = .ok [("ssh-key".toList, [0, 2]), ("ssh-key.pub".toList, [0, 1])] ∧
    (getSecretData friendlyEnv ⟨true, true, true⟩ "fabric8.io/secret-ssh-key".toList
      "n".toList []
      (getSecretData friendlyEnv ⟨true, true, true⟩ "fabric8.io/secret-ssh-key".toList
        "n".toList [] (worldOf [])).2).2.keys = 1 :=
  ⟨rfl, rfl, rfl⟩

end Gofabric8
